import Mathlib

/-!
Formal model of the attendance backend (`attendance/views.py` and
`attendance/models.py`): the time-bucketed file cache for chart images
(`get_cached_chart` / `save_cached_chart`), the JSON aggregation endpoint
(`DataAnalysisView.get`) and the chart endpoints
(`department_chart`, `role_chart`, `attendance_chart`, `signature_chart`,
`DataVisualizationView.get`).

File names are modelled as lists of character codes, so that Python's
`str.startswith` becomes `List.isPrefixOf`; the on-disk cache directory is
an association list from file name to file contents (bytes).
-/

namespace Attendance

/-- Character codes of a Lean string literal; used to spell out the fixed
parts of the cache file names (`chart_`, the chart-type label, `_`, `.png`). -/
def strCodes (s : String) : List Nat := s.toList.map Char.toNat

/-- Little-endian decimal digits of `n`, computed with explicit fuel
(the fuel is always at least `n`, which suffices since `n / 10 < n`).
Mirrors the digit loop behind Python's `str(int)`. -/
def decDigitsAux : Nat → Nat → List Nat
  | _, 0 => []
  | 0, _ + 1 => []
  | fuel + 1, n + 1 => ((n + 1) % 10) :: decDigitsAux fuel ((n + 1) / 10)

/-- Little-endian decimal digits of `n` (empty for `0`). -/
def decDigits (n : Nat) : List Nat := decDigitsAux n n

/-- Character codes of Python's `str(n)` for a natural number `n`:
most-significant digit first, `"0"` for zero, digit `d` is code `48 + d`. -/
def natCodes (n : Nat) : List Nat :=
  if n = 0 then [48] else ((decDigits n).map (fun d => 48 + d)).reverse

/-- A file name inside the chart cache directory, as character codes. -/
abbrev FileName := List Nat

/-- Raw file contents (image bytes). -/
abbrev Bytes := List Nat

/-- The on-disk state of the cache directory: an association list from file
name to contents.  A real directory has distinct file names; `DirWF` states
that. -/
abbrev CacheDir := List (FileName × Bytes)

/-- Well-formedness of a directory: no two entries share a file name. -/
def DirWF (dir : CacheDir) : Prop := (dir.map Prod.fst).Nodup

/-- `cache_key = f'chart_{chart_type}_{int(time.time() / cache_timeout)}'`.
`t` is the current unix time in seconds, `w` the `cache_timeout` window;
the bucket index is `⌊t / w⌋`. -/
def cache_key (chart_type : String) (t w : Nat) : FileName :=
  strCodes ("chart_" ++ chart_type ++ "_") ++ natCodes (t / w)

/-- `cache_path = os.path.join(CHART_CACHE_DIR, f'{cache_key}.png')`,
relative to the cache directory. -/
def cache_path (chart_type : String) (t w : Nat) : FileName :=
  cache_key chart_type t w ++ strCodes ".png"

/-- Reading a file by exact name (`os.path.exists` + `open(..., 'rb')`). -/
def readFile : CacheDir → FileName → Option Bytes
  | [], _ => none
  | (name, contents) :: rest, target =>
    if name = target then some contents else readFile rest target

/-- `get_cached_chart(chart_type, cache_timeout=60)`: build the bucketed
cache path and return the file's bytes when it exists, `None` otherwise. -/
def get_cached_chart (chart_type : String) (cache_timeout : Nat) (t : Nat)
    (dir : CacheDir) : Option Bytes :=
  readFile dir (cache_path chart_type t cache_timeout)

/-- `save_cached_chart(chart_type, image_data, cache_timeout=60)`:
for every file in the directory, delete it when its name starts with
`chart_{chart_type}_` but does not start with the current `cache_key`
(Python's `file.startswith(...)`, i.e. `List.isPrefixOf` on codes);
then write `image_data` to the current `cache_path`, overwriting any
existing file of that exact name. -/
def save_cached_chart (chart_type : String) (image_data : Bytes)
    (cache_timeout : Nat) (t : Nat) (dir : CacheDir) : CacheDir :=
  let key := cache_key chart_type t cache_timeout
  let path := cache_path chart_type t cache_timeout
  let cleaned := dir.filter (fun e =>
    !((strCodes ("chart_" ++ chart_type ++ "_")).isPrefixOf e.1 &&
      !(key.isPrefixOf e.1)))
  (path, image_data) :: cleaned.filter (fun e => decide (e.1 ≠ path))

/-- The cache file name of chart-type `ct` at bucket `n`:
`chart_<ct>_<n>.png`. -/
def chartFile (ct : String) (n : Nat) : FileName :=
  strCodes ("chart_" ++ ct ++ "_") ++ natCodes n ++ strCodes ".png"

/-- A timestamp as stored in `Employee.time_posted` (`DateTimeField`):
a calendar date plus a time of day in seconds.  `pd.to_datetime(...).dt.date`
keeps only the calendar-date part. -/
structure DateTime where
  year : Nat
  month : Nat
  day : Nat
  secondsOfDay : Nat
deriving DecidableEq, Repr

/-- The calendar date of a timestamp (what `.dt.date` extracts). -/
def DateTime.calendarDate (dt : DateTime) : Nat × Nat × Nat :=
  (dt.year, dt.month, dt.day)

/-- The `Employee` model: all character fields plus the creation
timestamp `time_posted` (`auto_now_add`). -/
structure Employee where
  first_name : String
  last_name : String
  email : String
  phone_number : String
  role : String
  department : String
  signature : String
  time_posted : DateTime
deriving DecidableEq, Repr

/-- Zero-pad to two digits, as in Python's `str(datetime.date)`. -/
def pad2 (n : Nat) : String :=
  if n < 10 then "0" ++ toString n else toString n

/-- Zero-pad to four digits, as in Python's `str(datetime.date)`. -/
def pad4 (n : Nat) : String :=
  if n < 10 then "000" ++ toString n
  else if n < 100 then "00" ++ toString n
  else if n < 1000 then "0" ++ toString n
  else toString n

/-- `str(date)`: the ISO `YYYY-MM-DD` rendering of a calendar date. -/
def isoDate (d : Nat × Nat × Nat) : String :=
  pad4 d.1 ++ "-" ++ pad2 d.2.1 ++ "-" ++ pad2 d.2.2

/-- `df[col].value_counts().to_dict()`: each distinct label of the column
mapped to its number of occurrences (as an association list; the dict's
key order is irrelevant to its contents). -/
def value_counts (xs : List String) : List (String × Nat) :=
  xs.dedup.map (fun l => (l, xs.count l))

/-- `df.groupby('date').size()` over `date = to_datetime(time_posted).dt.date`,
rendered as `{str(date): count}`: each distinct calendar date of the rows'
creation timestamps mapped to the number of rows on that date, keyed by the
ISO date string. -/
def daily_attendance_of (rows : List Employee) : List (String × Nat) :=
  let dates := rows.map (fun e => e.time_posted.calendarDate)
  dates.dedup.map (fun d => (isoDate d, dates.count d))

/-- The JSON payload of `DataAnalysisView.get` on a non-empty table. -/
structure AnalysisPayload where
  total_records : Nat
  checkin_vs_checkout : List (String × Nat)
  department_distribution : List (String × Nat)
  role_distribution : List (String × Nat)
  daily_attendance : List (String × Nat)
deriving DecidableEq, Repr

/-- The response of `DataAnalysisView.get`: on an empty table the view
returns only `total_records` and a `message` (no distribution keys);
otherwise the full payload. -/
inductive AnalysisResponse where
  | empty (total_records : Nat) (message : String)
  | full (payload : AnalysisPayload)
deriving DecidableEq, Repr

/-- `True` exactly when the response carries the distribution mappings. -/
def AnalysisResponse.isFull : AnalysisResponse → Bool
  | .empty _ _ => false
  | .full _ => true

/-- The `department_distribution` mapping of a response (empty when the
response carries no distributions). -/
def AnalysisResponse.deptDist : AnalysisResponse → List (String × Nat)
  | .empty _ _ => []
  | .full p => p.department_distribution

/-- The `daily_attendance` mapping of a response (empty when the response
carries no distributions). -/
def AnalysisResponse.dailyDist : AnalysisResponse → List (String × Nat)
  | .empty _ _ => []
  | .full p => p.daily_attendance

/-- Looking a label up in a label→count mapping. -/
def distLookup : List (String × Nat) → String → Option Nat
  | [], _ => none
  | (l, c) :: rest, target =>
    if l = target then some c else distLookup rest target

/-- `DataAnalysisView.get`: with no employees, return
`{'total_records': 0, 'message': 'No data available'}`; otherwise build the
DataFrame (whose columns always include `signature`, `department`, `role`
and `time_posted`, the model's fields) and return the four distributions
plus the row count. -/
def dataAnalysis (rows : List Employee) : AnalysisResponse :=
  if rows.isEmpty then
    .empty 0 "No data available"
  else
    .full
      { total_records := rows.length
        checkin_vs_checkout := value_counts (rows.map Employee.signature)
        department_distribution := value_counts (rows.map Employee.department)
        role_distribution := value_counts (rows.map Employee.role)
        daily_attendance := daily_attendance_of rows }

/-- Outcome of a chart-rendering attempt (the matplotlib collaborator):
either the PNG bytes of a successfully drawn figure — including "no data"
placeholders and figures whose inner `try/except` drew an error text into a
subplot — or an exception with its message reaching the outer handler. -/
inductive RenderResult where
  | ok (png : Bytes)
  | exn (msg : String)
deriving DecidableEq, Repr

/-- A Django `HttpResponse`: `HttpResponse(body, content_type=...)` has
status 200. -/
structure HttpResponse where
  status : Nat
  content_type : String
  body : Bytes
deriving DecidableEq, Repr

/-- The common shape of every chart endpoint (`department_chart`,
`role_chart`, `attendance_chart`, `signature_chart`,
`DataVisualizationView.get`): serve the cached bytes when
`get_cached_chart` hits; otherwise render — on success save the bytes via
`save_cached_chart` and return them, on an exception reaching the outer
`except` return the rendered error-placeholder image (`errImage msg`,
modelling the `plt.text("Error generating chart: ...")` figure) without
saving anything.  Every branch returns HTTP 200 with `image/png`.
The result pairs the response with the cache directory after the call. -/
def chart_endpoint (chart_type : String) (render : RenderResult)
    (errImage : String → Bytes) (t : Nat) (dir : CacheDir) :
    HttpResponse × CacheDir :=
  match get_cached_chart chart_type 60 t dir with
  | some cached => (⟨200, "image/png", cached⟩, dir)
  | none =>
    match render with
    | .ok png =>
      (⟨200, "image/png", png⟩, save_cached_chart chart_type png 60 t dir)
    | .exn msg => (⟨200, "image/png", errImage msg⟩, dir)

/-- `department_chart`. -/
def department_chart := chart_endpoint "departments"

/-- `role_chart`. -/
def role_chart := chart_endpoint "roles"

/-- `attendance_chart`. -/
def attendance_chart := chart_endpoint "attendance"

/-- `signature_chart`. -/
def signature_chart := chart_endpoint "signatures"

/-- `DataVisualizationView.get` (the combined 2×2 figure). -/
def dataVisualizationGet := chart_endpoint "combined"

/-- The five chart endpoints paired with their chart-type labels. -/
def chartEndpoints :
    List (String × (RenderResult → (String → Bytes) → Nat → CacheDir →
      HttpResponse × CacheDir)) :=
  [("departments", department_chart), ("roles", role_chart),
   ("attendance", attendance_chart), ("signatures", signature_chart),
   ("combined", dataVisualizationGet)]

/-! ### Decimal-representation lemmas

`natCodes` is the character-code rendering of `str(n)`; these lemmas relate
it to `Nat.digits 10` and derive the prefix-ordering facts that drive the
cache-cleanup analysis. -/

theorem decDigitsAux_eq (fuel n : Nat) (h : n ≤ fuel) :
    decDigitsAux fuel n = Nat.digits 10 n := by
  induction fuel generalizing n with
  | zero =>
    obtain rfl := Nat.le_zero.mp h
    simp [decDigitsAux]
  | succ f ih =>
    match n with
    | 0 => simp [decDigitsAux]
    | m + 1 =>
      rw [decDigitsAux, Nat.digits_def' (by norm_num : (1 : ℕ) < 10) (Nat.succ_pos m)]
      congr 1
      exact ih _ (Nat.le_of_lt_succ
        (Nat.lt_of_lt_of_le (Nat.div_lt_self (Nat.succ_pos m) (by norm_num)) h))

theorem decDigits_eq_digits (n : Nat) : decDigits n = Nat.digits 10 n :=
  decDigitsAux_eq n n le_rfl

theorem natCodes_eq (n : Nat) (h : n ≠ 0) :
    natCodes n = ((Nat.digits 10 n).map (fun d => 48 + d)).reverse := by
  simp [natCodes, h, decDigits_eq_digits]

theorem natCodes_length (n : Nat) (h : n ≠ 0) :
    (natCodes n).length = (Nat.digits 10 n).length := by
  simp [natCodes_eq n h]

/-- Every code in `natCodes n` is an ASCII digit: between 48 and 57. -/
theorem mem_natCodes_bounds (n c : Nat) (hc : c ∈ natCodes n) :
    48 ≤ c ∧ c < 58 := by
  by_cases h : n = 0
  · subst h
    simp [natCodes] at hc
    omega
  · rw [natCodes_eq n h] at hc
    simp only [List.mem_reverse, List.mem_map] at hc
    obtain ⟨d, hd, rfl⟩ := hc
    have := Nat.digits_lt_base (by norm_num) hd
    omega

theorem natCodes_inj (a b : Nat) (h : natCodes a = natCodes b) : a = b := by
  by_cases ha : a = 0
  · by_cases hb : b = 0
    · rw [ha, hb]
    · subst ha
      rw [natCodes_eq b hb] at h
      have h' : (Nat.digits 10 b).map (fun d => 48 + d) = [48] := by
        have := congrArg List.reverse h
        simpa [natCodes] using this.symm
      rcases hd : Nat.digits 10 b with _ | ⟨d, ds⟩
      · exact absurd hd (Nat.digits_ne_nil_iff_ne_zero.mpr hb)
      · rw [hd] at h'
        rcases ds with _ | ⟨d', ds'⟩
        · simp at h'
          have hb' := congrArg (Nat.ofDigits 10) hd
          rw [Nat.ofDigits_digits] at hb'
          simp [Nat.ofDigits, h'] at hb'
          exact absurd hb' hb
        · simp at h'
  · by_cases hb : b = 0
    · subst hb
      rw [natCodes_eq a ha] at h
      have h' : (Nat.digits 10 a).map (fun d => 48 + d) = [48] := by
        have := congrArg List.reverse h
        simpa [natCodes] using this
      rcases hd : Nat.digits 10 a with _ | ⟨d, ds⟩
      · exact absurd hd (Nat.digits_ne_nil_iff_ne_zero.mpr ha)
      · rw [hd] at h'
        rcases ds with _ | ⟨d', ds'⟩
        · simp at h'
          have ha' := congrArg (Nat.ofDigits 10) hd
          rw [Nat.ofDigits_digits] at ha'
          simp [Nat.ofDigits, h'] at ha'
          exact absurd ha' ha
        · simp at h'
    · rw [natCodes_eq a ha, natCodes_eq b hb] at h
      have h1 := List.reverse_injective h
      have h2 : Nat.digits 10 a = Nat.digits 10 b :=
        List.map_injective_iff.mpr (fun x y hxy => by omega) h1
      have := congrArg (Nat.ofDigits 10) h2
      rwa [Nat.ofDigits_digits, Nat.ofDigits_digits] at this

/-- The decimal rendering of a larger number is never a string prefix of the
rendering of a smaller one: if `str(a)` is a prefix of `str(b)` then `a ≤ b`. -/
theorem natCodes_prefix_le (a b : Nat) (h : natCodes a <+: natCodes b) :
    a ≤ b := by
  by_cases ha : a = 0
  · subst ha
    exact Nat.zero_le b
  by_cases hb : b = 0
  · subst hb
    have hlen := h.length_le
    have h1 : (natCodes a).length = (Nat.digits 10 a).length := natCodes_length a ha
    have h2 : Nat.digits 10 a ≠ [] := Nat.digits_ne_nil_iff_ne_zero.mpr ha
    have h3 : 1 ≤ (Nat.digits 10 a).length := List.length_pos.mpr h2
    have h4 : (natCodes a).length = (natCodes 0).length := by
      have h0 : (natCodes 0).length = 1 := by decide
      omega
    exact le_of_eq (natCodes_inj a 0 (h.eq_of_length h4))
  have hlen := h.length_le
  rw [natCodes_length a ha, natCodes_length b hb] at hlen
  rcases Nat.lt_or_ge (Nat.digits 10 a).length (Nat.digits 10 b).length with hlt | hge
  · have h1 : a < 10 ^ (Nat.digits 10 a).length :=
      Nat.lt_base_pow_length_digits (by norm_num)
    have h2 : (Nat.digits 10 b).length = Nat.log 10 b + 1 :=
      Nat.digits_len 10 b (by norm_num) hb
    have h3 : 10 ^ Nat.log 10 b ≤ b := Nat.pow_log_le_self 10 hb
    have h4 : (Nat.digits 10 a).length ≤ Nat.log 10 b := by omega
    exact le_of_lt (lt_of_lt_of_le h1
      (le_trans (Nat.pow_le_pow_right (by norm_num) h4) h3))
  · have h5 : (natCodes a).length = (natCodes b).length := by
      rw [natCodes_length a ha, natCodes_length b hb]
      omega
    exact le_of_eq (natCodes_inj a b (h.eq_of_length h5))

/-- A list avoiding the code `c` that is a prefix of `ys ++ c :: zs` is
already a prefix of `ys`. -/
theorem prefix_append_cons_of_not_mem (xs : List Nat) (c : Nat) (hc : c ∉ xs) :
    ∀ (ys zs : List Nat), xs <+: ys ++ c :: zs → xs <+: ys := by
  induction xs with
  | nil => exact fun _ _ _ => List.nil_prefix
  | cons x xt ih =>
    intro ys zs h
    cases ys with
    | nil =>
      rw [List.nil_append, List.cons_prefix_cons] at h
      exact absurd h.1 (by simp at hc; exact fun hxc => hc.1 hxc.symm)
    | cons y yt =>
      rw [List.cons_append, List.cons_prefix_cons] at h
      rw [List.cons_prefix_cons]
      exact ⟨h.1, ih (fun hm => hc (List.mem_cons_of_mem _ hm)) yt zs h.2⟩

/-- Stripping the `.png` extension: `str(a)` being a prefix of
`str(b) ++ ".png"` already makes it a prefix of `str(b)`. -/
theorem natCodes_prefix_of_prefix_png (a b : Nat)
    (h : natCodes a <+: natCodes b ++ strCodes ".png") :
    natCodes a <+: natCodes b := by
  have hpng : strCodes ".png" = 46 :: [112, 110, 103] := by decide
  rw [hpng] at h
  refine prefix_append_cons_of_not_mem (natCodes a) 46 ?_ _ _ h
  intro hm
  have := mem_natCodes_bounds a 46 hm
  omega

/-! ### Cache-operation lemmas -/

theorem cache_path_eq_chartFile (ct : String) (t w : Nat) :
    cache_path ct t w = chartFile ct (t / w) := by
  simp [cache_path, cache_key, chartFile, List.append_assoc]

theorem pre_isPrefixOf_chartFile (ct : String) (n : Nat) :
    (strCodes ("chart_" ++ ct ++ "_")).isPrefixOf (chartFile ct n) = true := by
  rw [ List.isPrefixOf_iff_prefix, chartFile, List.append_assoc]
  exact List.prefix_append _ _

theorem key_isPrefixOf_cache_path (ct : String) (t w : Nat) :
    (cache_key ct t w).isPrefixOf (cache_path ct t w) = true := by
  rw [ List.isPrefixOf_iff_prefix, cache_path]
  exact List.prefix_append _ _

/-- Membership in the directory after a `save_cached_chart`: the entry is
either the file just written, or a file of the prior directory that is not
the written path and survived the cleanup — i.e. if its name starts with
`chart_<ct>_` then it also starts with the current `cache_key`. -/
theorem mem_save_cached_chart {ct : String} {data : Bytes} {w t : Nat}
    {dir : CacheDir} {e : FileName × Bytes}
    (he : e ∈ save_cached_chart ct data w t dir) :
    e = (cache_path ct t w, data) ∨
      (e ∈ dir ∧ e.1 ≠ cache_path ct t w ∧
        ((strCodes ("chart_" ++ ct ++ "_")).isPrefixOf e.1 = true →
          (cache_key ct t w).isPrefixOf e.1 = true)) := by
  simp only [save_cached_chart, List.mem_cons, List.mem_filter] at he
  rcases he with h | ⟨⟨hmem, hkeep⟩, hne⟩
  · exact Or.inl h
  · refine Or.inr ⟨hmem, by simpa using hne, ?_⟩
    intro hpre
    by_contra hkey
    simp [hpre, hkey] at hkeep

/-- Conversely, every file of the prior directory that is not the written
path and whose name does not start with the deleted pattern survives. -/
theorem mem_save_cached_chart_of_mem {ct : String} {data : Bytes} {w t : Nat}
    {dir : CacheDir} {e : FileName × Bytes} (he : e ∈ dir)
    (hne : e.1 ≠ cache_path ct t w)
    (hkeep : (strCodes ("chart_" ++ ct ++ "_")).isPrefixOf e.1 = true →
      (cache_key ct t w).isPrefixOf e.1 = true) :
    e ∈ save_cached_chart ct data w t dir := by
  simp only [save_cached_chart, List.mem_cons, List.mem_filter]
  refine Or.inr ⟨⟨he, ?_⟩, by simpa using hne⟩
  by_cases hpre : (strCodes ("chart_" ++ ct ++ "_")).isPrefixOf e.1 = true
  · simp [hpre, hkeep hpre]
  · simp [Bool.eq_false_iff.mpr hpre]

theorem readFile_save (ct : String) (data : Bytes) (w t : Nat)
    (dir : CacheDir) :
    readFile (save_cached_chart ct data w t dir) (cache_path ct t w) =
      some data := by
  simp [save_cached_chart, readFile]

/-- On a directory with distinct file names, reading by name finds exactly
the entries of the directory. -/
theorem readFile_eq_some_iff {dir : CacheDir} (hwf : DirWF dir)
    (name : FileName) (b : Bytes) :
    readFile dir name = some b ↔ (name, b) ∈ dir := by
  induction dir with
  | nil => simp [readFile]
  | cons hd tl ih =>
    obtain ⟨n₀, b₀⟩ := hd
    rw [DirWF, List.map_cons, List.nodup_cons] at hwf
    by_cases hn : n₀ = name
    · subst hn
      simp only [readFile, if_pos rfl, List.mem_cons]
      constructor
      · rintro h
        exact Or.inl (by simpa using h.symm)
      · rintro (h | h)
        · simp [Prod.ext_iff] at h
          simp [h]
        · exact absurd (List.mem_map_of_mem Prod.fst h) (by simpa using hwf.1)
    · simp only [readFile, if_neg hn, List.mem_cons]
      rw [ih hwf.2]
      constructor
      · exact Or.inr
      · rintro (h | h)
        · exact absurd (congrArg Prod.fst h).symm hn
        · exact h

end Attendance

open Attendance

/-! ### Claim theorems -/

/-- C1 (counterexample): `store` does not remove every entry of the same
chart-type whose bucket differs.  With the current bucket `720 / 60 = 12`,
a prior `departments` entry at bucket `7380 / 60 = 123` — whose file name
`chart_departments_123.png` starts with the current cache key
`chart_departments_12` — survives `save_cached_chart`, so after the store
two entries for `departments` exist. -/
theorem save_cached_chart_stale_entry_survives :
    (cache_path "departments" 7380 60, [1]) ∈
      save_cached_chart "departments" [2] 60 720
        [(cache_path "departments" 7380 60, [1])] ∧
    (strCodes "chart_departments_").isPrefixOf
      (cache_path "departments" 7380 60) = true ∧
    cache_path "departments" 7380 60 ≠ cache_path "departments" 720 60 ∧
    7380 / 60 ≠ 720 / 60 := by
  decide

/-- C1 (amended): `store(chart_type, window, bytes)` writes the current
bucket's entry, and removes every existing entry whose name starts with
`chart_<chart_type>_` but does not start with the current cache key
`chart_<chart_type>_<bucket>`; equivalently, after `store` every surviving
entry of that chart-type has the current cache key as a name prefix (an
entry whose bucket's decimal string strictly extends the current bucket's
digits survives even though its bucket differs). -/
theorem save_cached_chart_cleanup (ct : String) (data : Bytes) (w t : Nat)
    (dir : CacheDir) :
    readFile (save_cached_chart ct data w t dir) (cache_path ct t w) =
      some data ∧
    ∀ name bytes, (name, bytes) ∈ save_cached_chart ct data w t dir →
      (strCodes ("chart_" ++ ct ++ "_")).isPrefixOf name = true →
      (cache_key ct t w).isPrefixOf name = true := by
  refine ⟨readFile_save ct data w t dir, ?_⟩
  intro name bytes hmem hpre
  rcases mem_save_cached_chart hmem with h | ⟨_, _, himp⟩
  · have hname : name = cache_path ct t w := congrArg Prod.fst h
    rw [hname]
    exact key_isPrefixOf_cache_path ct t w
  · exact himp hpre

/-- Witness for C1 (amended) at chart-type `roles`, window 60, time 0,
empty prior directory. -/
theorem save_cached_chart_cleanup_witness :
    (cache_key "roles" 0 60).isPrefixOf (cache_path "roles" 0 60) = true :=
  (save_cached_chart_cleanup "roles" [9] 60 0 []).2
    (cache_path "roles" 0 60) [9] (by decide) (by decide)

/-- C3: after `store(chart_type, window, B)` at time `t`, a `lookup` at any
time `t'` in the same bucket returns exactly `B`. -/
theorem store_then_lookup (ct : String) (B : Bytes) (w t t' : Nat)
    (dir : CacheDir) (hbucket : t' / w = t / w) :
    get_cached_chart ct w t' (save_cached_chart ct B w t dir) = some B := by
  have hpath : cache_path ct t' w = cache_path ct t w := by
    rw [cache_path_eq_chartFile, cache_path_eq_chartFile, hbucket]
  rw [get_cached_chart, hpath]
  exact readFile_save ct B w t dir

/-- Witness for C3: store at time 0, look up at time 30, window 60. -/
theorem store_then_lookup_witness :
    get_cached_chart "departments" 60 30
      (save_cached_chart "departments" [3] 60 0 []) = some [3] :=
  store_then_lookup "departments" [3] 60 0 30 [] (by decide)

/-- C4: `lookup(chart_type, window)` keys by `chart_<type>_<⌊t/w⌋>.png`;
on a directory with distinct names it returns `some b` exactly when the
entry for that exact key is `b`, and `none` exactly when no entry for that
key exists — it never returns another bucket's entry. -/
theorem lookup_exact_key (ct : String) (w t : Nat) (dir : CacheDir)
    (hwf : DirWF dir) :
    (∀ b, get_cached_chart ct w t dir = some b ↔
      (chartFile ct (t / w), b) ∈ dir) ∧
    (get_cached_chart ct w t dir = none ↔
      ∀ b, (chartFile ct (t / w), b) ∉ dir) := by
  have hkey : ∀ b, get_cached_chart ct w t dir = some b ↔
      (chartFile ct (t / w), b) ∈ dir := by
    intro b
    rw [get_cached_chart, cache_path_eq_chartFile]
    exact readFile_eq_some_iff hwf _ b
  refine ⟨hkey, ?_, ?_⟩
  · intro hnone b hb
    rw [← hkey b, hnone] at hb
    cases hb
  · intro hall
    cases hg : get_cached_chart ct w t dir with
    | none => rfl
    | some b => exact absurd ((hkey b).mp hg) (hall b)

/-- Witness for C4: a one-entry directory at the current bucket is found. -/
theorem lookup_exact_key_witness :
    get_cached_chart "departments" 60 30
      [(chartFile "departments" 0, [5])] = some [5] :=
  ((lookup_exact_key "departments" 60 30 [(chartFile "departments" 0, [5])]
    (by unfold DirWF; decide)).1 [5]).mpr (by decide)

/-- C9: two `lookup` calls in the same bucket against the same directory
return the same result (idempotent read). -/
theorem lookup_idempotent (ct : String) (w t1 t2 : Nat) (dir : CacheDir)
    (h : t1 / w = t2 / w) :
    get_cached_chart ct w t1 dir = get_cached_chart ct w t2 dir := by
  rw [get_cached_chart, get_cached_chart, cache_path_eq_chartFile,
    cache_path_eq_chartFile, h]

/-- Witness for C9 at times 10 and 50 in the same 60-second bucket. -/
theorem lookup_idempotent_witness :
    get_cached_chart "roles" 60 10 [] = get_cached_chart "roles" 60 50 [] :=
  lookup_idempotent "roles" 60 10 50 [] (by decide)

/-- C5: two successive `store`s for `departments` with an advancing bucket
leave exactly one on-disk entry for `departments`, holding the second
bytes — provided every prior `departments` entry sits at a bucket no later
than the first store's bucket (as produced by a forward-moving clock). -/
theorem store_store_departments (B1 B2 : Bytes) (w w' t1 t2 : Nat)
    (dir : CacheDir) (hadv : t1 / w < t2 / w')
    (hprior : ∀ e ∈ dir,
      (strCodes ("chart_" ++ "departments" ++ "_")).isPrefixOf e.1 = true →
      ∃ n, n ≤ t1 / w ∧ e.1 = chartFile "departments" n) :
    (save_cached_chart "departments" B2 w' t2
        (save_cached_chart "departments" B1 w t1 dir)).filter
      (fun e => (strCodes ("chart_" ++ "departments" ++ "_")).isPrefixOf e.1) =
      [(chartFile "departments" (t2 / w'), B2)] := by
  set S1 := save_cached_chart "departments" B1 w t1 dir with hS1
  have hpre2 : (strCodes ("chart_" ++ "departments" ++ "_")).isPrefixOf
      (cache_path "departments" t2 w') = true := by
    rw [cache_path_eq_chartFile]
    exact pre_isPrefixOf_chartFile _ _
  simp only [save_cached_chart]
  simp only [List.filter_cons]
  rw [if_pos hpre2]
  simp only [List.cons.injEq]
  constructor
  · rw [cache_path_eq_chartFile]
  · rw [List.filter_eq_nil_iff]
    intro e he
    rw [List.mem_filter] at he
    obtain ⟨he', hq⟩ := he
    rw [List.mem_filter] at he'
    obtain ⟨heS1, hc⟩ := he'
    intro hp
    have hp' : (strCodes ("chart_" ++ "departments" ++ "_")).isPrefixOf e.1 =
        true := hp
    have hpl : (strCodes "chart_departments_").isPrefixOf e.1 = true := hp'
    have hkey2 : (cache_key "departments" t2 w').isPrefixOf e.1 = true := by
      by_contra hk
      simp [hpl, hk] at hc
    have hkey2' : strCodes ("chart_" ++ "departments" ++ "_") ++
        natCodes (t2 / w') <+: e.1 :=
      List.isPrefixOf_iff_prefix.mp hkey2
    rcases mem_save_cached_chart heS1 with h1 | ⟨hdir, hne1, himp1⟩
    · -- e is the entry written by the first store
      have hname : e.1 = chartFile "departments" (t1 / w) := by
        rw [congrArg Prod.fst h1]
        exact cache_path_eq_chartFile _ _ _
      rw [hname, chartFile, List.append_assoc] at hkey2'
      have h2 := (List.prefix_append_right_inj _).mp hkey2'
      have h3 := natCodes_prefix_of_prefix_png _ _ h2
      have h4 := natCodes_prefix_le _ _ h3
      omega
    · -- e is a survivor from the prior directory
      have hkey1 : (cache_key "departments" t1 w).isPrefixOf e.1 = true :=
        himp1 hp'
      obtain ⟨n, hn, hname⟩ := hprior e hdir hp'
      rw [hname] at hkey1
      have hkey1' : strCodes ("chart_" ++ "departments" ++ "_") ++
          natCodes (t1 / w) <+: chartFile "departments" n :=
        List.isPrefixOf_iff_prefix.mp hkey1
      rw [chartFile, List.append_assoc] at hkey1'
      have h2 := (List.prefix_append_right_inj _).mp hkey1'
      have h3 := natCodes_prefix_of_prefix_png _ _ h2
      have h4 := natCodes_prefix_le _ _ h3
      have hn1 : n = t1 / w := by omega
      apply hne1
      rw [hname, hn1, cache_path_eq_chartFile]

/-- Witness for C5: empty prior directory, buckets 1 then 12. -/
theorem store_store_departments_witness :
    (save_cached_chart "departments" [2] 60 720
        (save_cached_chart "departments" [1] 60 60 [])).filter
      (fun e => (strCodes ("chart_" ++ "departments" ++ "_")).isPrefixOf e.1) =
      [(chartFile "departments" 12, [2])] :=
  store_store_departments [1] [2] 60 60 60 720 [] (by decide)
    (fun e he => absurd he (List.not_mem_nil e))

/-- C2 (counterexample): on an empty employee table the analysis view
returns `{'total_records': 0, 'message': 'No data available'}` — a response
carrying no distribution mappings at all, not empty mappings for each
distribution. -/
theorem dataAnalysis_empty_counterexample :
    dataAnalysis [] = AnalysisResponse.empty 0 "No data available" ∧
    (dataAnalysis []).isFull = false := by
  decide

/-- C2 (amended): on an empty employee table the analysis view returns
`total_records = 0` together with the message `No data available`, omitting
the four distribution keys, and does not raise an error. -/
theorem dataAnalysis_empty :
    dataAnalysis [] = AnalysisResponse.empty 0 "No data available" := rfl

/-- C7: for three rows with departments `A`, `A`, `B`, the department
distribution maps `A` to 2, `B` to 1, and nothing else. -/
theorem dataAnalysis_department_distribution (e1 e2 e3 : Employee)
    (h1 : e1.department = "A") (h2 : e2.department = "A")
    (h3 : e3.department = "B") :
    (dataAnalysis [e1, e2, e3]).isFull = true ∧
    distLookup (dataAnalysis [e1, e2, e3]).deptDist "A" = some 2 ∧
    distLookup (dataAnalysis [e1, e2, e3]).deptDist "B" = some 1 ∧
    ∀ l, l ≠ "A" → l ≠ "B" →
      distLookup (dataAnalysis [e1, e2, e3]).deptDist l = none := by
  have hmap : [e1, e2, e3].map Employee.department = ["A", "A", "B"] := by
    simp [h1, h2, h3]
  have hd : (dataAnalysis [e1, e2, e3]).deptDist = [("A", 2), ("B", 1)] := by
    simp only [dataAnalysis, List.isEmpty_cons, Bool.false_eq_true, if_false,
      AnalysisResponse.deptDist, hmap]
    decide
  refine ⟨by simp [dataAnalysis, AnalysisResponse.isFull], ?_, ?_, ?_⟩
  · rw [hd]
    decide
  · rw [hd]
    decide
  · intro l hA hB
    rw [hd]
    simp [distLookup, Ne.symm hA, Ne.symm hB]

/-- Witness for C7 on three concrete employees. -/
theorem dataAnalysis_department_distribution_witness :
    distLookup (dataAnalysis
      [⟨"a", "b", "e", "p", "r", "A", "in", ⟨2024, 1, 1, 0⟩⟩,
       ⟨"c", "d", "e", "p", "r", "A", "out", ⟨2024, 1, 1, 60⟩⟩,
       ⟨"f", "g", "e", "p", "r", "B", "in", ⟨2024, 1, 2, 0⟩⟩]).deptDist
      "A" = some 2 :=
  (dataAnalysis_department_distribution _ _ _ rfl rfl rfl).2.1

/-- C8: two rows created on the same calendar date at different times of
day collapse into a single `daily_attendance` entry, keyed by the ISO date
string, with count 2. -/
theorem dataAnalysis_daily_same_date (e1 e2 : Employee)
    (hdate : e1.time_posted.calendarDate = e2.time_posted.calendarDate)
    (_htime : e1.time_posted.secondsOfDay ≠ e2.time_posted.secondsOfDay) :
    (dataAnalysis [e1, e2]).isFull = true ∧
    (dataAnalysis [e1, e2]).dailyDist =
      [(isoDate e1.time_posted.calendarDate, 2)] := by
  refine ⟨by simp [dataAnalysis, AnalysisResponse.isFull], ?_⟩
  have h1 : [e1, e2].map (fun e => e.time_posted.calendarDate) =
      [e1.time_posted.calendarDate, e1.time_posted.calendarDate] := by
    simp [← hdate]
  simp only [dataAnalysis, List.isEmpty_cons, Bool.false_eq_true, if_false,
    AnalysisResponse.dailyDist, daily_attendance_of, h1]
  have hdedup :
      [e1.time_posted.calendarDate, e1.time_posted.calendarDate].dedup =
        [e1.time_posted.calendarDate] := by
    rw [List.dedup_cons_of_mem (List.mem_singleton.mpr rfl),
      List.dedup_cons_of_not_mem (List.not_mem_nil _), List.dedup_nil]
  rw [hdedup]
  simp [List.count_cons]

/-- Witness for C8 on two concrete employees 60 seconds apart on the same
day. -/
theorem dataAnalysis_daily_same_date_witness :
    (dataAnalysis
      [⟨"a", "b", "e", "p", "r", "A", "in", ⟨2024, 1, 1, 0⟩⟩,
       ⟨"c", "d", "e", "p", "r", "B", "out", ⟨2024, 1, 1, 60⟩⟩]).isFull =
      true ∧
    (dataAnalysis
      [⟨"a", "b", "e", "p", "r", "A", "in", ⟨2024, 1, 1, 0⟩⟩,
       ⟨"c", "d", "e", "p", "r", "B", "out", ⟨2024, 1, 1, 60⟩⟩]).dailyDist =
      [(isoDate (2024, 1, 1), 2)] :=
  dataAnalysis_daily_same_date _ _ rfl (by decide)

/-- C6: each of the five chart endpoints answers a render exception with an
HTTP 200 response of content type `image/png` whose body is the rendered
error image — never a non-2xx status. -/
theorem chart_endpoints_render_failure
    (ep : String × (RenderResult → (String → Bytes) → Nat → CacheDir →
      HttpResponse × CacheDir))
    (hep : ep ∈ chartEndpoints) (msg : String) (errImage : String → Bytes)
    (t : Nat) (dir : CacheDir) :
    (ep.2 (.exn msg) errImage t dir).1.status = 200 ∧
    (ep.2 (.exn msg) errImage t dir).1.content_type = "image/png" ∧
    (get_cached_chart ep.1 60 t dir = none →
      (ep.2 (.exn msg) errImage t dir).1.body = errImage msg) := by
  simp only [chartEndpoints, List.mem_cons, List.not_mem_nil, or_false]
    at hep
  rcases hep with rfl | rfl | rfl | rfl | rfl <;>
  · cases hg : get_cached_chart _ 60 t dir with
    | some c =>
      refine ⟨?_, ?_, ?_⟩ <;> simp [department_chart, role_chart,
        attendance_chart, signature_chart, dataVisualizationGet,
        chart_endpoint, hg]
    | none =>
      refine ⟨?_, ?_, ?_⟩ <;> simp [department_chart, role_chart,
        attendance_chart, signature_chart, dataVisualizationGet,
        chart_endpoint, hg]

/-- Witness for C6: `department_chart` on an empty cache with a failing
render. -/
theorem chart_endpoints_render_failure_witness :
    (department_chart (.exn "boom") (fun _ => [7]) 0 []).1.status = 200 ∧
    (department_chart (.exn "boom") (fun _ => [7]) 0 []).1.content_type =
      "image/png" ∧
    (department_chart (.exn "boom") (fun _ => [7]) 0 []).1.body = [7] := by
  obtain ⟨h1, h2, h3⟩ := chart_endpoints_render_failure
    ("departments", department_chart) (by simp [chartEndpoints]) "boom"
    (fun _ => [7]) 0 []
  exact ⟨h1, h2, h3 (by decide)⟩

/-- C10: on a render exception no store happens — every chart endpoint
leaves the cache directory unchanged; only the success path (including
"no data" placeholder renders) stores its result on a miss. -/
theorem chart_endpoints_error_not_cached
    (ep : String × (RenderResult → (String → Bytes) → Nat → CacheDir →
      HttpResponse × CacheDir))
    (hep : ep ∈ chartEndpoints) (msg : String) (errImage : String → Bytes)
    (t : Nat) (dir : CacheDir) (png : Bytes) :
    (ep.2 (.exn msg) errImage t dir).2 = dir ∧
    (get_cached_chart ep.1 60 t dir = none →
      (ep.2 (.ok png) errImage t dir).2 =
        save_cached_chart ep.1 png 60 t dir) := by
  simp only [chartEndpoints, List.mem_cons, List.not_mem_nil, or_false]
    at hep
  rcases hep with rfl | rfl | rfl | rfl | rfl <;>
  · cases hg : get_cached_chart _ 60 t dir with
    | some c =>
      constructor <;> simp [department_chart, role_chart, attendance_chart,
        signature_chart, dataVisualizationGet, chart_endpoint, hg]
    | none =>
      constructor <;> simp [department_chart, role_chart, attendance_chart,
        signature_chart, dataVisualizationGet, chart_endpoint, hg]

/-- Witness for C10: `role_chart` on an empty cache. -/
theorem chart_endpoints_error_not_cached_witness :
    (role_chart (.exn "oops") (fun _ => [7]) 0 []).2 = ([] : CacheDir) ∧
    (role_chart (.ok [4]) (fun _ => [7]) 0 []).2 =
      save_cached_chart "roles" [4] 60 0 [] := by
  obtain ⟨h1, h2⟩ := chart_endpoints_error_not_cached
    ("roles", role_chart) (by simp [chartEndpoints]) "oops"
    (fun _ => [7]) 0 [] [4]
  exact ⟨h1, h2 (by decide)⟩

